import Mathlib

/-!
Verification of the institution-matching service: shallow embedding of
`src/app/services/institution_service.py`, `src/app/services/test_service.py`
and the data model of `src/app/models/models.py`, together with theorems
checking the behavioural claims of the specification against that embedding.

Strings are modelled as `List Char`.  The Python regular-expression character
classes `\s` and `\w`, `str.isupper`, `str.lower` and the `unidecode`
transliteration are modelled faithfully on the ASCII and Latin-1 range, which
covers the character sets exercised by the registry data and by every claim.
-/

namespace Roracle

/-- Characters matched by the Python regex class `\s` (ASCII range). -/
def isPySpace (c : Char) : Bool :=
  c == ' ' || c == '\t' || c == '\n' || c == '\r' || c == '\x0b' || c == '\x0c'

/-- Characters matched by the Python regex class `\w`: alphanumerics and
underscore, extended with the Latin-1 letters (everything in `0xC0`-`0xFF`
except the multiplication and division signs). -/
def isWordChar (c : Char) : Bool :=
  c.isAlphanum || c == '_' ||
    (decide (0xC0 ≤ c.toNat) && decide (c.toNat ≤ 0xFF) &&
      !(c.toNat == 0xD7) && !(c.toNat == 0xF7))

/-- ASCII uppercase letters `A`-`Z` (the regex class `[A-Z]`). -/
def isAsciiUpperChar (c : Char) : Bool :=
  decide (65 ≤ c.toNat) && decide (c.toNat ≤ 90)

/-- Uppercase cased characters in the modelled range (ASCII plus Latin-1). -/
def isPyUpperChar (c : Char) : Bool :=
  (decide (65 ≤ c.toNat) && decide (c.toNat ≤ 90)) ||
    (decide (0xC0 ≤ c.toNat) && decide (c.toNat ≤ 0xDE) && !(c.toNat == 0xD7))

/-- Lowercase cased characters in the modelled range (ASCII plus Latin-1). -/
def isPyLowerChar (c : Char) : Bool :=
  (decide (97 ≤ c.toNat) && decide (c.toNat ≤ 122)) ||
    (decide (0xDF ≤ c.toNat) && decide (c.toNat ≤ 0xFF) && !(c.toNat == 0xF7))

/-- A character is cased when it is uppercase or lowercase. -/
def isPyCased (c : Char) : Bool :=
  isPyUpperChar c || isPyLowerChar c

/-- Python `str.lower`, per character, on the modelled range. -/
def pyLower (c : Char) : Char :=
  if isPyUpperChar c then Char.ofNat (c.toNat + 32) else c

/-- Python `str.isupper` of a word: at least one cased character and every
cased character uppercase. -/
def wordIsUpper (w : List Char) : Bool :=
  w.any isPyCased && w.all (fun c => !isPyCased c || isPyUpperChar c)

/-- The `unidecode` transliteration, per character: identity on ASCII,
Latin-1 letters mapped to their unaccented ASCII expansions, anything else
dropped (the library's behaviour for untabulated codepoints). -/
def unidecodeChar (c : Char) : List Char :=
  let n := c.toNat
  if n < 128 then [c]
  else if n == 0xC6 then ['A', 'E']
  else if n == 0xE6 then ['a', 'e']
  else if n == 0xDE then ['T', 'h']
  else if n == 0xFE then ['t', 'h']
  else if n == 0xDF then ['s', 's']
  else if decide (0xC0 ≤ n) && decide (n ≤ 0xC5) then ['A']
  else if n == 0xC7 then ['C']
  else if decide (0xC8 ≤ n) && decide (n ≤ 0xCB) then ['E']
  else if decide (0xCC ≤ n) && decide (n ≤ 0xCF) then ['I']
  else if n == 0xD0 then ['D']
  else if n == 0xD1 then ['N']
  else if (decide (0xD2 ≤ n) && decide (n ≤ 0xD6)) || n == 0xD8 then ['O']
  else if decide (0xD9 ≤ n) && decide (n ≤ 0xDC) then ['U']
  else if n == 0xDD then ['Y']
  else if decide (0xE0 ≤ n) && decide (n ≤ 0xE5) then ['a']
  else if n == 0xE7 then ['c']
  else if decide (0xE8 ≤ n) && decide (n ≤ 0xEB) then ['e']
  else if decide (0xEC ≤ n) && decide (n ≤ 0xEF) then ['i']
  else if n == 0xF0 then ['d']
  else if n == 0xF1 then ['n']
  else if (decide (0xF2 ≤ n) && decide (n ≤ 0xF6)) || n == 0xF8 then ['o']
  else if decide (0xF9 ≤ n) && decide (n ≤ 0xFC) then ['u']
  else if n == 0xFD || n == 0xFF then ['y']
  else []

/-- Characters of a Lean string literal, used to write concrete inputs. -/
def str (s : String) : List Char := s.data

/-- Fuel-indexed model of `re.sub(r"\s+", " ", text)`: every maximal run of
whitespace becomes a single space.  The fuel is an upper bound on the length
of the list, which makes the recursion structural. -/
def collapseWsFuel : Nat → List Char → List Char
  | 0, s => s
  | _, [] => []
  | fuel + 1, c :: cs =>
    if isPySpace c then ' ' :: collapseWsFuel fuel (cs.dropWhile isPySpace)
    else c :: collapseWsFuel fuel cs

/-- Model of `re.sub(r"\s+", " ", text)`. -/
def collapseWs (s : List Char) : List Char :=
  collapseWsFuel s.length s

/-- Python `str.strip()`: remove leading and trailing whitespace. -/
def stripChars (s : List Char) : List Char :=
  ((s.dropWhile isPySpace).reverse.dropWhile isPySpace).reverse

/-- Fuel-indexed model of Python `str.split()` with no argument: split on
whitespace runs, discarding empty pieces. -/
def splitWsFuel : Nat → List Char → List (List Char)
  | 0, _ => []
  | _, [] => []
  | fuel + 1, c :: cs =>
    if isPySpace c then splitWsFuel fuel cs
    else (c :: cs.takeWhile (fun x => !isPySpace x)) ::
      splitWsFuel fuel (cs.dropWhile (fun x => !isPySpace x))

/-- Model of Python `str.split()` with no argument. -/
def splitWs (s : List Char) : List (List Char) :=
  splitWsFuel s.length s

/-- Step 2 of `normalize`, per word: words that are not entirely uppercase
are lowercased, all-uppercase words are preserved. -/
def lowerWord (w : List Char) : List Char :=
  if wordIsUpper w then w else w.map pyLower

/-- Model of `InstitutionService.normalize`
(`src/app/services/institution_service.py`, lines 138-165):

1. collapse every whitespace run to one space and strip the ends;
2. lowercase each space-delimited word unless it is all-uppercase;
3. remove every character that is neither a word character nor whitespace;
4. transliterate accented characters to ASCII.

Empty input short-circuits to the empty string. -/
def normalize (text : List Char) : List Char :=
  if text.isEmpty then []
  else
    let t1 := stripChars (collapseWs text)
    let t2 := List.intercalate [' '] ((splitWs t1).map lowerWord)
    let t3 := t2.filter (fun c => isWordChar c || isPySpace c)
    (t3.map unidecodeChar).flatten

/-- Fuel-indexed decomposition of a string into its maximal runs of word
characters (the substrings bounded by `\b` word boundaries). -/
def wordRunsFuel : Nat → List Char → List (List Char)
  | 0, _ => []
  | _, [] => []
  | fuel + 1, c :: cs =>
    if isWordChar c then
      (c :: cs.takeWhile isWordChar) :: wordRunsFuel fuel (cs.dropWhile isWordChar)
    else wordRunsFuel fuel cs

/-- Maximal runs of word characters, in order of occurrence. -/
def wordRuns (s : List Char) : List (List Char) :=
  wordRunsFuel s.length s

/-- Model of `re.findall(r"\b[A-Z]{2,}\b", text)`: the maximal word-character
runs consisting of two or more ASCII uppercase letters.  (A shorter uppercase
prefix of a longer word never matches, because the trailing `\b` fails on the
following word character.) -/
def findUppercaseWords (s : List Char) : List (List Char) :=
  (wordRuns s).filter (fun w => decide (2 ≤ w.length) && w.all isAsciiUpperChar)

/-- Fuel-indexed model of Python `str.replace(pat, rep)`: replace every
non-overlapping occurrence of `pat`, scanning left to right.  Callers always
pass a non-empty `pat`, for which the fuel `s.length` never runs out. -/
def replaceAllFuel (pat rep : List Char) : Nat → List Char → List Char
  | 0, s => s
  | _, [] => []
  | fuel + 1, c :: cs =>
    if pat.isPrefixOf (c :: cs) then
      rep ++ replaceAllFuel pat rep fuel ((c :: cs).drop pat.length)
    else c :: replaceAllFuel pat rep fuel cs

/-- Model of Python `str.replace(pat, rep)`. -/
def replaceAll (s pat rep : List Char) : List Char :=
  replaceAllFuel pat rep s.length s

/-- Fuel-indexed model of `re.findall(r"\(([^)]+)\)", text)`: scan for `(`,
capture the maximal non-empty run of non-`)` characters, require a closing
`)`, and continue after it. -/
def findParensFuel : Nat → List Char → List (List Char)
  | 0, _ => []
  | _, [] => []
  | fuel + 1, c :: cs =>
    if c == '(' then
      match cs.dropWhile (fun x => !(x == ')')) with
      | ')' :: rest =>
        let inner := cs.takeWhile (fun x => !(x == ')'))
        if inner.isEmpty then findParensFuel fuel cs
        else inner :: findParensFuel fuel rest
      | _ => []
    else findParensFuel fuel cs

/-- Model of `re.findall(r"\(([^)]+)\)", text)`. -/
def findParens (s : List Char) : List (List Char) :=
  findParensFuel s.length s

/-- Split a list at every element satisfying `p`, keeping empty pieces, as
`re.split` does with a single-character alternative class. -/
def splitOnPred (p : Char → Bool) : List Char → List (List Char)
  | [] => [[]]
  | c :: cs =>
    if p c then [] :: splitOnPred p cs
    else
      match splitOnPred p cs with
      | [] => [[c]]
      | h :: t => (c :: h) :: t

/-- The delimiter class `[,;–—\-]` of the tokenizer: comma, semicolon,
en dash, em dash and hyphen. -/
def isDelim (c : Char) : Bool :=
  c == ',' || c == ';' || c == '–' || c == '—' || c == '-'

/-- Model of `InstitutionService.tokenize`
(`src/app/services/institution_service.py`, lines 167-205):

1. find the all-uppercase words; each of length ≥ 3 becomes a token and every
   occurrence of its text is replaced by a space in the working copy;
2. find the parenthesised groups of the working copy; each inner text of
   length ≥ 3 becomes a token and every occurrence of the whole group is
   replaced by a space;
3. split the working copy on `, ; – — -`, strip each piece, and keep the
   pieces of length ≥ 3;
4. finally drop any accumulated token of length < 3. -/
def tokenize (text : List Char) : List (List Char) :=
  let step1 :=
    (findUppercaseWords text).foldl
      (fun (acc : List (List Char) × List Char) w =>
        if 3 ≤ w.length then (acc.1 ++ [w], replaceAll acc.2 w [' ']) else acc)
      ([], text)
  let step2 :=
    (findParens step1.2).foldl
      (fun (acc : List (List Char) × List Char) m =>
        if 3 ≤ m.length then
          (acc.1 ++ [m], replaceAll acc.2 ('(' :: m ++ [')']) [' '])
        else acc)
      step1
  let parts := splitOnPred isDelim step2.2
  let withParts :=
    parts.foldl
      (fun (acc : List (List Char)) part =>
        let p := stripChars part
        if !p.isEmpty && 3 ≤ p.length then acc ++ [p] else acc)
      step2.1
  withParts.filter (fun tok => decide (3 ≤ tok.length))

/-- Institution record (`src/app/models/models.py`): OpenAlex id, display
name, ROR id, and the list of alternate names. -/
structure Institution where
  id : List Char
  name : List Char
  ror : List Char
  alternate_names : List (List Char)
deriving DecidableEq

/-- State of `InstitutionService`: the two lookup dictionaries (modelled as
association lists in Python-dict insertion order) and the loaded flag. -/
structure ServiceState where
  normalized_name_to_ror_id : List (List Char × List (List Char))
  ror_id_to_record : List (List Char × Institution)
  data_loaded : Bool
deriving DecidableEq

/-- Lookup in an association list: the value of the first matching key, as
Python `dict` reads. -/
def alistGet {α : Type} : List (List Char × α) → List Char → Option α
  | [], _ => none
  | (k', v) :: rest, k => if k' = k then some v else alistGet rest k

/-- Insertion into an association list: update the first matching key in
place, or append a fresh key at the end, as Python `dict` assignment does. -/
def alistInsert {α : Type} : List (List Char × α) → List Char → α → List (List Char × α)
  | [], k, v => [(k, v)]
  | (k', v') :: rest, k, v =>
    if k' = k then (k', v) :: rest else (k', v') :: alistInsert rest k v

/-- Model of `InstitutionService._add_normalized_name_to_lookup`
(`src/app/services/institution_service.py`, lines 126-136): names shorter
than 3 characters (including the empty name) are ignored; otherwise the
ror id is appended to the normalized name's id list unless already present. -/
def add_normalized_name_to_lookup (st : ServiceState) (name : List Char)
    (ror_id : List Char) : ServiceState :=
  if name.length < 3 then st
  else
    let normalized_name := normalize name
    let cur := (alistGet st.normalized_name_to_ror_id normalized_name).getD []
    let upd := if ror_id ∈ cur then cur else cur ++ [ror_id]
    { st with
      normalized_name_to_ror_id :=
        alistInsert st.normalized_name_to_ror_id normalized_name upd }

/-- An ingested CSV row (`load_data`'s view of the registry dump): `none`
models a missing or NaN field. -/
structure Row where
  id : Option (List Char)
  openalex_id : Option (List Char)
  display_name : Option (List Char)
  acronyms : Option (List Char)
  names : Option (List Char)
deriving DecidableEq

/-- Python `str.split('|')`: split at every pipe, keeping empty pieces. -/
def pySplitPipe (s : List Char) : List (List Char) :=
  splitOnPred (fun c => c == '|') s

/-- Model of the per-row body of `load_data`'s CSV loop
(`src/app/services/institution_service.py`, lines 55-105): rows with a
missing or empty id, OpenAlex id or display name are skipped; otherwise the
record is stored under its ror id and the display name and every alternate
name of length ≥ 3 are indexed. -/
def processRow (st : ServiceState) (row : Row) : ServiceState :=
  match row.id, row.openalex_id, row.display_name with
  | some ror_id, some openalex_id, some display_name =>
    if ror_id.isEmpty || openalex_id.isEmpty || display_name.isEmpty then st
    else
      let alternate_names :=
        ((row.acronyms.map pySplitPipe).getD []) ++ ((row.names.map pySplitPipe).getD [])
      let institution : Institution :=
        ⟨openalex_id, display_name, str "https://ror.org/" ++ ror_id, alternate_names⟩
      let st1 := { st with
        ror_id_to_record := alistInsert st.ror_id_to_record ror_id institution }
      let st2 := add_normalized_name_to_lookup st1 display_name ror_id
      alternate_names.foldl
        (fun s alt_name =>
          if !alt_name.isEmpty && 3 ≤ alt_name.length then
            add_normalized_name_to_lookup s alt_name ror_id
          else s)
        st2
  | _, _, _ => st

/-- The three outcomes of reading the registry source in `load_data`: the
file is missing, the CSV was read into rows, or reading raised an error. -/
inductive LoadSource where
  | missingFile : LoadSource
  | csv : List Row → LoadSource
  | loadError : LoadSource
deriving DecidableEq

/-- The sample institution created when the data file is missing
(`src/app/services/institution_service.py`, lines 36-41). -/
def sampleInstitution : Institution :=
  ⟨str "https://openalex.org/I123456789", str "Sample University",
   str "https://ror.org/sample123", [str "SU", str "Sample Univ"]⟩

/-- The fallback institution created when loading raises
(`src/app/services/institution_service.py`, lines 113-118). -/
def fallbackInstitution : Institution :=
  ⟨str "https://openalex.org/I987654321", str "Fallback University",
   str "https://ror.org/fallback123", [str "FU", str "Fallback Univ"]⟩

/-- Model of `InstitutionService.load_data`
(`src/app/services/institution_service.py`, lines 24-124): a no-op when
already loaded; otherwise the missing-file path installs the sample record,
the CSV path folds `processRow` over the rows, and the error path installs
the fallback record.  Every path sets the loaded flag. -/
def load_data (src : LoadSource) (st : ServiceState) : ServiceState :=
  if st.data_loaded then st
  else
    match src with
    | .missingFile =>
      let st1 := { st with
        ror_id_to_record :=
          alistInsert st.ror_id_to_record (str "sample123") sampleInstitution }
      let st2 := add_normalized_name_to_lookup st1 (str "Sample University") (str "sample123")
      let st3 := add_normalized_name_to_lookup st2 (str "SU") (str "sample123")
      let st4 := add_normalized_name_to_lookup st3 (str "Sample Univ") (str "sample123")
      { st4 with data_loaded := true }
    | .csv rows =>
      let st' := rows.foldl processRow st
      { st' with data_loaded := true }
    | .loadError =>
      let st1 := { st with
        ror_id_to_record :=
          alistInsert st.ror_id_to_record (str "fallback123") fallbackInstitution }
      let st2 := add_normalized_name_to_lookup st1 (str "Fallback University") (str "fallback123")
      let st3 := add_normalized_name_to_lookup st2 (str "FU") (str "fallback123")
      let st4 := add_normalized_name_to_lookup st3 (str "Fallback Univ") (str "fallback123")
      { st4 with data_loaded := true }

/-- The initial service state built by `InstitutionService.__init__`. -/
def emptyState : ServiceState := ⟨[], [], false⟩

/-- Python `pat in s` for strings: contiguous substring occurrence. -/
def isSubstring (pat : List Char) : List Char → Bool
  | [] => pat.isEmpty
  | c :: cs => pat.isPrefixOf (c :: cs) || isSubstring pat cs

/-- Python `str.lower()`, applied per character. -/
def lowerStr (s : List Char) : List Char := s.map pyLower

/-- The per-candidate geoname test of `lookup_institution`: some geoname,
lowercased, occurs as a substring of the lowercased display name. -/
def geonameMatches (geonames : List (List Char)) (inst : Institution) : Bool :=
  geonames.any (fun g => isSubstring (lowerStr g) (lowerStr inst.name))

/-- The disambiguation loop of `lookup_institution`
(`src/app/services/institution_service.py`, lines 250-266): walk the bound
ror ids in order, skip ids without a record, and collect every candidate
whose display name matches a geoname. -/
def disambCandidates (st : ServiceState) (geonames : List (List Char))
    (matching_ror_ids : List (List Char)) : List Institution :=
  matching_ror_ids.foldl
    (fun acc ror_id =>
      match alistGet st.ror_id_to_record ror_id with
      | none => acc
      | some institution =>
        if geonameMatches geonames institution then acc ++ [institution] else acc)
    []

/-- The geoname disambiguation step of `lookup_institution`
(`src/app/services/institution_service.py`, lines 249-269): attempted only
when `geonames` is non-empty, and conclusive only when exactly one candidate
matches. -/
def disambiguate (st : ServiceState) (geonames : List (List Char))
    (matching_ror_ids : List (List Char)) : Option (List Institution) :=
  if geonames.isEmpty then none
  else if (disambCandidates st geonames matching_ror_ids).length = 1 then
    some (disambCandidates st geonames matching_ror_ids)
  else none

/-- Model of `InstitutionService.lookup_institution`
(`src/app/services/institution_service.py`, lines 227-273): normalize the
token; tokens whose normalization is shorter than 3 characters, and tokens
with no index entry, return `([], false)`; a single bound id returns its
record (or the empty list, when the record is absent) with `true`; with two
or more bound ids, a conclusive geoname disambiguation returns that single
candidate with `true`, otherwise all candidates with a record are returned
with `false`. -/
def lookup_institution (st : ServiceState) (token : List Char)
    (geonames : List (List Char)) : List Institution × Bool :=
  if (normalize token).length < 3 then ([], false)
  else
    match alistGet st.normalized_name_to_ror_id (normalize token) with
    | none => ([], false)
    | some [] => ([], false)
    | some [ror_id] =>
      match alistGet st.ror_id_to_record ror_id with
      | some institution => ([institution], true)
      | none => ([], true)
    | some matching_ror_ids =>
      match disambiguate st geonames matching_ror_ids with
      | some ds => (ds, true)
      | none =>
        (matching_ror_ids.filterMap (alistGet st.ror_id_to_record), false)

/-- Result of the external geo-extraction capability: a mapping from country
to city names, and the country names found. -/
structure GeoResult where
  cities : List (List Char × List (List Char))
  countries : List (List Char)
deriving DecidableEq

/-- Model of `InstitutionService.find_geonames`
(`src/app/services/institution_service.py`, lines 207-225): flatten all city
names then all country names from the extractor's result; any failure of the
extractor degrades to the empty list. -/
def find_geonames (extract : List Char → Except (List Char) GeoResult)
    (text : List Char) : List (List Char) :=
  match extract text with
  | .error _ => []
  | .ok result => (result.cities.map Prod.snd).flatten ++ result.countries

/-- A produced match (`src/app/models/models.py`): the token, the matching
institution, and whether the token resolved uniquely. -/
structure Match where
  token : List Char
  institution : Institution
  is_token_unique : Bool
deriving DecidableEq

/-- Result of one query (`src/app/models/models.py`). -/
structure QueryResult where
  query : List Char
  geonames : List (List Char)
  matches' : List Match
deriving DecidableEq

/-- Model of `InstitutionService.process_query`
(`src/app/services/institution_service.py`, lines 275-308): ensure the data
is loaded, extract geonames, tokenize, and for each token append one match
per institution returned by `lookup_institution`. -/
def process_query (src : LoadSource)
    (extract : List Char → Except (List Char) GeoResult)
    (st : ServiceState) (query : List Char) : QueryResult :=
  let st' := if st.data_loaded then st else load_data src st
  let geonames := find_geonames extract query
  let tokens := tokenize query
  let matches' := tokens.foldl
    (fun acc token =>
      let r := lookup_institution st' token geonames
      acc ++ r.1.map (fun institution => Match.mk token institution r.2))
    []
  ⟨query, geonames, matches'⟩

/-- An expected entity of a test specification
(`src/app/services/test_service.py`): the Python dict's `get` defaults are
modelled by empty strings and lists, and a missing or `None` id by the empty
string (both are falsy and are treated identically by the code). -/
structure Entity where
  id : List Char
  name : List Char
  ror : List Char
  alternate_names : List (List Char)
deriving DecidableEq

/-- One test specification consumed by `run_tests`. -/
structure TestSpec where
  id : List Char
  query : List Char
  expected_entities : List Entity
deriving DecidableEq

/-- Classification of one test's matches (`src/app/models/models.py`). -/
structure TestMatch where
  correct : List Match
  overmatched : List Match
  undermatched : List Institution
deriving DecidableEq

/-- Outcome of one test (`src/app/models/models.py`). -/
structure Test where
  id : List Char
  query : List Char
  is_passing : Bool
  results : TestMatch
deriving DecidableEq

/-- The ids of the expected entities that have a non-empty id, in order
(`expected_ids` of `run_tests`, line 58 of `src/app/services/test_service.py`). -/
def expectedIdsOf (spec : TestSpec) : List (List Char) :=
  (spec.expected_entities.filter (fun e => !e.id.isEmpty)).map Entity.id

/-- The institution ids of all matches of a query result, duplicates
included (`found_ids` of `run_tests`, line 61). -/
def foundIdsOf (qr : QueryResult) : List (List Char) :=
  qr.matches'.map (fun m => m.institution.id)

/-- Model of the per-test body of `TestService.run_tests`
(`src/app/services/test_service.py`, lines 49-100), parameterised by the
query-processing function `pq` (in the application,
`institution_service.process_query`): run the query, compute the expected
and found id lists, set `is_passing` when every expected id is found and the
found count equals the expected count, partition the matches into correct
and overmatched, and materialise the missing expectations as placeholder
institutions. -/
def run_one_test (pq : List Char → QueryResult) (spec : TestSpec) : Test :=
  let query_result := pq spec.query
  let expected_ids := expectedIdsOf spec
  let found_ids := foundIdsOf query_result
  let is_passing :=
    expected_ids.all (fun eid => decide (eid ∈ found_ids)) &&
      decide (found_ids.length = expected_ids.length)
  let correct_matches :=
    query_result.matches'.filter (fun m => decide (m.institution.id ∈ expected_ids))
  let overmatched :=
    query_result.matches'.filter (fun m => !decide (m.institution.id ∈ expected_ids))
  let undermatched :=
    (spec.expected_entities.filter
        (fun e => !e.id.isEmpty && !decide (e.id ∈ found_ids))).map
      (fun e => Institution.mk e.id e.name e.ror e.alternate_names)
  ⟨spec.id, spec.query, is_passing, ⟨correct_matches, overmatched, undermatched⟩⟩

/-- Model of `TestService.run_tests`
(`src/app/services/test_service.py`, lines 42-102): when the provided
specification list is empty (or absent) the tests previously stored by
`load_tests` are run instead; each specification yields one outcome. -/
def run_tests (pq : List Char → QueryResult) (stored_tests : List TestSpec)
    (test_specs : List TestSpec) : List Test :=
  let tests_to_run := if test_specs.isEmpty then stored_tests else test_specs
  tests_to_run.map (run_one_test pq)

/-- Model of `TestService.calculate_metrics`
(`src/app/services/test_service.py`, lines 104-118): sum the sizes of the
correct, overmatched and undermatched lists over all outcomes and form
precision and recall, each zero when its denominator is zero.  The Python
float division is modelled exactly over `ℚ`. -/
def calculate_metrics (test_results : List Test) : ℚ × ℚ :=
  let true_positives : Nat :=
    test_results.foldl (fun acc t => acc + t.results.correct.length) 0
  let false_positives : Nat :=
    test_results.foldl (fun acc t => acc + t.results.overmatched.length) 0
  let false_negatives : Nat :=
    test_results.foldl (fun acc t => acc + t.results.undermatched.length) 0
  let precision : ℚ :=
    if 0 < true_positives + false_positives then
      (true_positives : ℚ) / ((true_positives : ℚ) + (false_positives : ℚ))
    else 0
  let recallValue : ℚ :=
    if 0 < true_positives + false_negatives then
      (true_positives : ℚ) / ((true_positives : ℚ) + (false_negatives : ℚ))
    else 0
  (precision, recallValue)

/-- Aggregate `TP = Σ|correct|` as the specification writes it. -/
def specTP (rs : List Test) : Nat :=
  (rs.map (fun t => t.results.correct.length)).sum

/-- Aggregate `FP = Σ|overmatched|` as the specification writes it. -/
def specFP (rs : List Test) : Nat :=
  (rs.map (fun t => t.results.overmatched.length)).sum

/-- Aggregate `FN = Σ|undermatched|` as the specification writes it. -/
def specFN (rs : List Test) : Nat :=
  (rs.map (fun t => t.results.undermatched.length)).sum

/-- The invariant of claim C9: every institution id appearing in an entry of
`normalized_name_to_ror_id` is a key of `ror_id_to_record`. -/
def StateInvariant (st : ServiceState) : Prop :=
  ∀ nn ids rid, alistGet st.normalized_name_to_ror_id nn = some ids →
    rid ∈ ids → (alistGet st.ror_id_to_record rid).isSome

/-- Fixture: a query processor producing one fixed match, used to exercise
the evaluator on concrete inputs. -/
def constResultFn : List Char → QueryResult :=
  fun q => ⟨q, [], [⟨str "tok", sampleInstitution, true⟩]⟩

/-- Fixture: a test specification expecting exactly the sample institution. -/
def specOne : TestSpec :=
  ⟨str "t1", str "q1", [⟨str "https://openalex.org/I123456789", [], [], []⟩]⟩

/-- Fixture: a test specification with no expected entities. -/
def specTwo : TestSpec := ⟨str "t2", str "q2", []⟩

/-- Fixture: an extractor whose capability always fails. -/
def failingExtractor : List Char → Except (List Char) GeoResult :=
  fun _ => .error (str "boom")

/-- Fixture: registry row whose display name `a.b` normalizes to the
two-character index key `ab`. -/
def shortKeyRowOne : Row :=
  ⟨some (str "r1"), some (str "I1"), some (str "a.b"), none, none⟩

/-- Fixture: registry row whose display name `a-b` also normalizes to `ab`. -/
def shortKeyRowTwo : Row :=
  ⟨some (str "r2"), some (str "I2"), some (str "a-b"), none, none⟩

/-- Fixture: the state loaded from the two short-key rows, in which the index
key `ab` is bound to two institution ids. -/
def shortKeyState : ServiceState :=
  load_data (.csv [shortKeyRowOne, shortKeyRowTwo]) emptyState

/-- Fixture: first of two institutions sharing a normalized name. -/
def instSpringfield : Institution :=
  ⟨str "I1", str "University of Springfield", str "https://ror.org/r1", []⟩

/-- Fixture: second of two institutions sharing a normalized name. -/
def instShelbyville : Institution :=
  ⟨str "I2", str "University of Shelbyville", str "https://ror.org/r2", []⟩

/-- Fixture: a service state in which `example university` is an ambiguous
index key bound to two institutions. -/
def ambiguousState : ServiceState :=
  ⟨[(str "example university", [str "r1", str "r2"])],
   [(str "r1", instSpringfield), (str "r2", instShelbyville)], true⟩

/-- Claim C1, counterexample: `tokenize "Example University (EU)"` is not the
one-element sequence `["Example University"]` the claim states — the code
only excises a parenthetical from the working text when its content has
length at least 3, so `(EU)` survives into the remainder token. -/
theorem C1_counterexample :
    tokenize (str "Example University (EU)") ≠ [str "Example University"] := by
  decide

/-- Claim C1, amended: `tokenize "Example University (EU)"` returns exactly
`["Example University (EU)"]` — the parenthetical content `EU` is below the
length-3 threshold, so it is neither emitted as a token nor removed from the
working text, and the surviving delimiter-split token retains it. -/
theorem C1_amended_thm :
    tokenize (str "Example University (EU)") = [str "Example University (EU)"] := by
  decide

/-- Claim C2, counterexample: `normalize` is not idempotent.  In
`normalize "a . b"` the punctuation strip removes the free-standing dot and
leaves two adjacent spaces, which only a second application collapses. -/
theorem C2_counterexample :
    normalize (normalize (str "a . b")) ≠ normalize (str "a . b") := by
  decide

/-- Claim C2, amended: `normalize` is total (it is a total function of its
input) and empty or absent input yields the empty string, but it is not
idempotent for all strings. -/
theorem C2_amended_thm :
    normalize [] = [] ∧ ¬ ∀ x : List Char, normalize (normalize x) = normalize x :=
  ⟨rfl, fun h => absurd (h (str "a . b")) (by decide)⟩

/-- Claim C7: `tokenize "NASA Ames Research Center"` returns exactly
`["NASA", "Ames Research Center"]` — the all-uppercase acronym is extracted
first and removed from the working text, and the remainder forms a single
delimiter-free token. -/
theorem C7_tokenize_nasa :
    tokenize (str "NASA Ames Research Center") =
      [str "NASA", str "Ames Research Center"] := by
  decide

/-- Claim C8: for every input string, every element of the sequence returned
by `tokenize` has length at least 3, by the final filtering pass. -/
theorem C8_token_min_length (text tok : List Char) (h : tok ∈ tokenize text) :
    3 ≤ tok.length := by
  simp only [tokenize] at h
  exact of_decide_eq_true (List.mem_filter.mp h).2

/-- Witness for C8 at a concrete input: `"NASA"` is a token of
`tokenize "NASA Ames Research Center"` and indeed has length at least 3. -/
theorem C8_witness :
    str "NASA" ∈ tokenize (str "NASA Ames Research Center") ∧
      3 ≤ (str "NASA").length :=
  ⟨by decide,
   C8_token_min_length (str "NASA Ames Research Center") (str "NASA") (by decide)⟩

/-- Claim C4: for every test case run by the evaluator, with `expectedIdsOf`
the non-empty ids of the expected entities and `foundIdsOf` the institution
ids of all produced matches including duplicates, `is_passing` is true if
and only if every expected id appears among the found ids and the count of
found ids equals the count of expected ids. -/
theorem C4_is_passing (pq : List Char → QueryResult) (stored specs : List TestSpec)
    (spec : TestSpec) (h : spec ∈ if specs.isEmpty then stored else specs) :
    run_one_test pq spec ∈ run_tests pq stored specs ∧
    ((run_one_test pq spec).is_passing = true ↔
      ((∀ eid ∈ expectedIdsOf spec, eid ∈ foundIdsOf (pq spec.query)) ∧
        (foundIdsOf (pq spec.query)).length = (expectedIdsOf spec).length)) := by
  constructor
  · unfold run_tests
    exact List.mem_map_of_mem _ h
  · simp only [run_one_test, Bool.and_eq_true, List.all_eq_true, decide_eq_true_eq]

/-- Witness for C4 at a concrete input: a single-spec run whose one expected
id is exactly the id of the one produced match passes. -/
theorem C4_witness : (run_one_test constResultFn specOne).is_passing = true :=
  ((C4_is_passing constResultFn [] [specOne] specOne (by decide)).2).mpr
    ⟨by decide, by decide⟩

/-- Claim C10: `run_tests` with an empty (or absent) specification list falls
back to the stored tests, producing one outcome per stored test, while a
non-empty argument list overrides the stored tests entirely. -/
theorem C10_run_tests_fallback (pq : List Char → QueryResult)
    (stored specs : List TestSpec) :
    (specs = [] →
      run_tests pq stored specs = stored.map (run_one_test pq) ∧
      (run_tests pq stored specs).length = stored.length) ∧
    (specs ≠ [] → run_tests pq stored specs = specs.map (run_one_test pq)) := by
  constructor
  · rintro rfl
    simp [run_tests]
  · intro h
    have : specs.isEmpty = false := by simpa [List.isEmpty_iff] using h
    simp [run_tests, this]

/-- Witness for C10 at concrete inputs: an empty argument list runs the one
stored test, a non-empty argument list runs its own tests instead. -/
theorem C10_witness :
    run_tests constResultFn [specOne] [] = [specOne].map (run_one_test constResultFn) ∧
    run_tests constResultFn [specOne] [specTwo] =
      [specTwo].map (run_one_test constResultFn) :=
  ⟨((C10_run_tests_fallback constResultFn [specOne] []).1 rfl).1,
   (C10_run_tests_fallback constResultFn [specOne] [specTwo]).2 (by decide)⟩

/-- Folding an accumulated sum over a list equals the initial value plus the
sum of the mapped lengths. -/
theorem foldl_add_eq_sum {α : Type} (f : α → Nat) (l : List α) :
    ∀ n : Nat, l.foldl (fun acc t => acc + f t) n = n + (l.map f).sum := by
  induction l with
  | nil => simp
  | cons t ts ih =>
    intro n
    simp only [List.foldl_cons, List.map_cons, List.sum_cons, ih]
    omega

/-- Claim C5: `calculate_metrics` over any sequence of test outcomes returns
`precision = TP/(TP+FP)` and `recall = TP/(TP+FN)`, where `TP`, `FP`, `FN`
are the summed sizes of the correct, overmatched and undermatched sequences
across all outcomes; each metric is 0 when its denominator is 0. -/
theorem C5_calculate_metrics (rs : List Test) :
    calculate_metrics rs =
      ((if specTP rs + specFP rs = 0 then 0
        else (specTP rs : ℚ) / ((specTP rs : ℚ) + (specFP rs : ℚ))),
       (if specTP rs + specFN rs = 0 then 0
        else (specTP rs : ℚ) / ((specTP rs : ℚ) + (specFN rs : ℚ)))) := by
  have key : ∀ a b : Nat,
      (if 0 < a + b then (a : ℚ) / ((a : ℚ) + (b : ℚ)) else 0) =
        (if a + b = 0 then 0 else (a : ℚ) / ((a : ℚ) + (b : ℚ))) := by
    intro a b
    by_cases h : a + b = 0
    · simp [h]
    · simp [h, Nat.pos_of_ne_zero h]
  unfold calculate_metrics specTP specFP specFN
  simp only [foldl_add_eq_sum, Nat.zero_add, key]

/-- Claim C6: a failure of the external geo-extraction capability is never
propagated: `find_geonames` returns the empty sequence, and `process_query`
produces the query result computed with an empty geoname list. -/
theorem C6_geo_failure (src : LoadSource)
    (extract : List Char → Except (List Char) GeoResult) (st : ServiceState)
    (query e : List Char) (h : extract query = .error e) :
    find_geonames extract query = [] ∧
    (process_query src extract st query).geonames = [] ∧
    process_query src extract st query =
      process_query src (fun _ => .ok ⟨[], []⟩) st query := by
  have hg : find_geonames extract query = [] := by
    simp [find_geonames, h]
  refine ⟨hg, ?_, ?_⟩
  · simp [process_query, hg]
  · simp [process_query, find_geonames, h]

/-- Witness for C6 at a concrete input: the always-failing extractor yields
an empty geoname list and the same query result as the empty extraction. -/
theorem C6_witness :
    find_geonames failingExtractor (str "Sample University") = [] ∧
    (process_query .missingFile failingExtractor emptyState
      (str "Sample University")).geonames = [] ∧
    process_query .missingFile failingExtractor emptyState (str "Sample University") =
      process_query .missingFile (fun _ => .ok ⟨[], []⟩) emptyState
        (str "Sample University") :=
  C6_geo_failure .missingFile failingExtractor emptyState
    (str "Sample University") (str "boom") rfl

/-- Reading an association list after an insertion: the inserted key reads
the new value, every other key is unaffected. -/
theorem alistGet_insert {α : Type} (m : List (List Char × α)) (k k' : List Char)
    (v : α) :
    alistGet (alistInsert m k v) k' = if k = k' then some v else alistGet m k' := by
  induction m with
  | nil => simp [alistInsert, alistGet]
  | cons p rest ih =>
    obtain ⟨k'', v''⟩ := p
    by_cases h : k'' = k
    · subst h
      simp only [alistInsert, if_pos rfl, alistGet]
      split_ifs <;> rfl
    · simp only [alistInsert, if_neg h, alistGet, ih]
      split_ifs with h1 h2
      · exact absurd (h1.trans h2.symm) h
      · rfl
      · rfl
      · rfl

/-- Insertion preserves the presence of any key of the record map. -/
theorem alistGet_isSome_insert {α : Type} (m : List (List Char × α))
    (k rid : List Char) (v : α) (h : (alistGet m rid).isSome) :
    (alistGet (alistInsert m k v) rid).isSome := by
  rw [alistGet_insert]
  split <;> simp [h]

/-- Indexing a name never changes the record map. -/
theorem add_lookup_record_eq (st : ServiceState) (name rid : List Char) :
    (add_normalized_name_to_lookup st name rid).ror_id_to_record =
      st.ror_id_to_record := by
  unfold add_normalized_name_to_lookup
  split <;> rfl

/-- Indexing a name whose ror id is a key of the record map preserves the
C9 invariant. -/
theorem StateInvariant_add (st : ServiceState) (name rid : List Char)
    (hst : StateInvariant st) (hr : (alistGet st.ror_id_to_record rid).isSome) :
    StateInvariant (add_normalized_name_to_lookup st name rid) := by
  unfold add_normalized_name_to_lookup
  split
  · exact hst
  · intro nn ids rid' hget hmem
    show (alistGet st.ror_id_to_record rid').isSome = true
    have hget' : (if normalize name = nn then
        some (if rid ∈ (alistGet st.normalized_name_to_ror_id (normalize name)).getD [] then
          (alistGet st.normalized_name_to_ror_id (normalize name)).getD []
        else (alistGet st.normalized_name_to_ror_id (normalize name)).getD [] ++ [rid])
      else alistGet st.normalized_name_to_ror_id nn) = some ids := by
      rw [← alistGet_insert]
      exact hget
    by_cases hk : normalize name = nn
    · rw [if_pos hk] at hget'
      injection hget' with hids
      rcases hcur : alistGet st.normalized_name_to_ror_id (normalize name) with _ | cur0
      · rw [hcur] at hids
        simp only [Option.getD_none, List.not_mem_nil, if_false, List.nil_append] at hids
        rw [← hids] at hmem
        simp only [List.mem_cons, List.not_mem_nil, or_false] at hmem
        subst hmem
        exact hr
      · rw [hcur] at hids
        simp only [Option.getD_some] at hids
        rw [← hids] at hmem
        by_cases hin : rid ∈ cur0
        · rw [if_pos hin] at hmem
          exact hst _ _ _ (hk ▸ hcur) hmem
        · rw [if_neg hin] at hmem
          rcases List.mem_append.mp hmem with hmem2 | hmem2
          · exact hst _ _ _ (hk ▸ hcur) hmem2
          · simp only [List.mem_cons, List.not_mem_nil, or_false] at hmem2
            subst hmem2
            exact hr
    · rw [if_neg hk] at hget'
      exact hst nn ids rid' hget' hmem

/-- Storing a record preserves the C9 invariant. -/
theorem StateInvariant_insert_record (st : ServiceState) (k : List Char)
    (v : Institution) (hst : StateInvariant st) :
    StateInvariant { st with ror_id_to_record := alistInsert st.ror_id_to_record k v } := by
  intro nn ids rid hget hmem
  exact alistGet_isSome_insert _ _ _ _ (hst nn ids rid hget hmem)

/-- Folding the alternate-name indexing loop preserves both the C9 invariant
and the presence of the row's ror id in the record map. -/
theorem StateInvariant_foldl_add (rid : List Char) (names : List (List Char)) :
    ∀ st : ServiceState, StateInvariant st →
      (alistGet st.ror_id_to_record rid).isSome = true →
      StateInvariant (names.foldl
        (fun s alt_name =>
          if !alt_name.isEmpty && 3 ≤ alt_name.length then
            add_normalized_name_to_lookup s alt_name rid
          else s)
        st) := by
  induction names with
  | nil => exact fun st h _ => h
  | cons n ns ih =>
    intro st h hr
    simp only [List.foldl_cons]
    split
    · exact ih _ (StateInvariant_add st n rid h hr) (by rw [add_lookup_record_eq]; exact hr)
    · exact ih _ h hr

/-- Processing one registry row preserves the C9 invariant. -/
theorem StateInvariant_processRow (st : ServiceState) (row : Row)
    (hst : StateInvariant st) : StateInvariant (processRow st row) := by
  obtain ⟨rid?, oa?, dn?, acr?, nms?⟩ := row
  unfold processRow
  rcases rid? with _ | rid
  · exact hst
  · rcases oa? with _ | oa
    · exact hst
    · rcases dn? with _ | dn
      · exact hst
      · simp only
        split
        · exact hst
        · have h1 := StateInvariant_insert_record st rid
            ⟨oa, dn, str "https://ror.org/" ++ rid,
             ((acr?.map pySplitPipe).getD []) ++ ((nms?.map pySplitPipe).getD [])⟩ hst
          have hr1 : (alistGet (alistInsert st.ror_id_to_record rid
              ⟨oa, dn, str "https://ror.org/" ++ rid,
               ((acr?.map pySplitPipe).getD []) ++ ((nms?.map pySplitPipe).getD [])⟩) rid).isSome = true := by
            rw [alistGet_insert, if_pos rfl]
            rfl
          exact StateInvariant_foldl_add rid _ _
            (StateInvariant_add _ dn rid h1 hr1)
            (by rw [add_lookup_record_eq]; exact hr1)

/-- Folding the CSV loop preserves the C9 invariant. -/
theorem StateInvariant_foldl_rows (rows : List Row) :
    ∀ st : ServiceState, StateInvariant st →
      StateInvariant (rows.foldl processRow st) := by
  induction rows with
  | nil => exact fun _ h => h
  | cons r rs ih => exact fun st h => ih _ (StateInvariant_processRow st r h)

/-- The initial service state satisfies the C9 invariant. -/
theorem StateInvariant_empty : StateInvariant emptyState := by
  intro nn ids rid hget
  simp [emptyState, alistGet] at hget

/-- Every path of `load_data` preserves the C9 invariant. -/
theorem StateInvariant_load_data (src : LoadSource) (st : ServiceState)
    (hst : StateInvariant st) : StateInvariant (load_data src st) := by
  unfold load_data
  split
  · exact hst
  · cases src with
    | csv rows => exact StateInvariant_foldl_rows rows st hst
    | missingFile =>
      have h1 := StateInvariant_insert_record st (str "sample123") sampleInstitution hst
      have hr1 : (alistGet (alistInsert st.ror_id_to_record (str "sample123")
          sampleInstitution) (str "sample123")).isSome = true := by
        rw [alistGet_insert, if_pos rfl]; rfl
      have h2 := StateInvariant_add _ (str "Sample University") (str "sample123") h1 hr1
      have hr2 := hr1
      rw [← add_lookup_record_eq _ (str "Sample University") (str "sample123")] at hr2
      have h3 := StateInvariant_add _ (str "SU") (str "sample123") h2 hr2
      have hr3 := hr2
      rw [← add_lookup_record_eq _ (str "SU") (str "sample123")] at hr3
      have h4 := StateInvariant_add _ (str "Sample Univ") (str "sample123") h3 hr3
      exact h4
    | loadError =>
      have h1 := StateInvariant_insert_record st (str "fallback123") fallbackInstitution hst
      have hr1 : (alistGet (alistInsert st.ror_id_to_record (str "fallback123")
          fallbackInstitution) (str "fallback123")).isSome = true := by
        rw [alistGet_insert, if_pos rfl]; rfl
      have h2 := StateInvariant_add _ (str "Fallback University") (str "fallback123") h1 hr1
      have hr2 := hr1
      rw [← add_lookup_record_eq _ (str "Fallback University") (str "fallback123")] at hr2
      have h3 := StateInvariant_add _ (str "FU") (str "fallback123") h2 hr2
      have hr3 := hr2
      rw [← add_lookup_record_eq _ (str "FU") (str "fallback123")] at hr3
      have h4 := StateInvariant_add _ (str "Fallback Univ") (str "fallback123") h3 hr3
      exact h4

/-- Under the C9 invariant, `lookup_institution` never reports a unique
match together with an empty institution list. -/
theorem lookup_true_nonempty (st : ServiceState) (token : List Char)
    (geonames : List (List Char)) (hst : StateInvariant st)
    (h : (lookup_institution st token geonames).2 = true) :
    (lookup_institution st token geonames).1 ≠ [] := by
  have key : ∀ l : List Institution,
      lookup_institution st token geonames = (l, true) → l ≠ [] := by
    intro l hl
    unfold lookup_institution at hl
    split at hl
    · simp at hl
    · split at hl
      · simp at hl
      · simp at hl
      · rename_i rid heq
        split at hl
        · rename_i inst hrec
          simp only [Prod.mk.injEq, and_true] at hl
          subst hl
          simp
        · rename_i hrec
          have hr := hst _ _ rid heq (by simp)
          rw [hrec] at hr
          cases hr
      · split at hl
        · rename_i ds heq2
          simp only [Prod.mk.injEq, and_true] at hl
          subst hl
          unfold disambiguate at heq2
          split at heq2
          · cases heq2
          · split at heq2
            · rename_i hone
              injection heq2 with heq3
              subst heq3
              intro hnil
              rw [hnil] at hone
              cases hone
            · cases heq2
        · simp at hl
  intro hnil
  exact key _ (by rw [← h]) hnil

/-- Claim C9: in every state produced by `load_data` (CSV path, missing-file
sample path, or error fallback path), every institution id appearing in any
entry of `normalized_name_to_ror_id` is also a key of `ror_id_to_record`;
consequently `lookup_institution` never returns an empty institution list
together with `isUnique = true`. -/
theorem C9_load_invariant (src : LoadSource) :
    StateInvariant (load_data src emptyState) ∧
    ∀ token geonames,
      (lookup_institution (load_data src emptyState) token geonames).2 = true →
      (lookup_institution (load_data src emptyState) token geonames).1 ≠ [] := by
  refine ⟨StateInvariant_load_data src emptyState StateInvariant_empty, ?_⟩
  intro token geonames htrue
  exact lookup_true_nonempty _ _ _
    (StateInvariant_load_data src emptyState StateInvariant_empty) htrue

/-- Witness for C9 at a concrete input: in the sample state the token
`Sample University` resolves uniquely, and the institution list is
accordingly non-empty. -/
theorem C9_witness :
    (lookup_institution (load_data .missingFile emptyState)
      (str "Sample University") []).2 = true ∧
    (lookup_institution (load_data .missingFile emptyState)
      (str "Sample University") []).1 ≠ [] :=
  ⟨by decide, (C9_load_invariant .missingFile).2 (str "Sample University") [] (by decide)⟩

/-- The disambiguation loop collects exactly the candidates with a record
whose display name matches a geoname, in id order. -/
theorem disambCandidates_eq (st : ServiceState) (geos : List (List Char))
    (ids : List (List Char)) :
    disambCandidates st geos ids =
      (ids.filterMap (alistGet st.ror_id_to_record)).filter (geonameMatches geos) := by
  unfold disambCandidates
  suffices h : ∀ acc : List Institution,
      ids.foldl
        (fun acc ror_id =>
          match alistGet st.ror_id_to_record ror_id with
          | none => acc
          | some institution =>
            if geonameMatches geos institution then acc ++ [institution] else acc)
        acc =
      acc ++ (ids.filterMap (alistGet st.ror_id_to_record)).filter (geonameMatches geos) by
    simpa using h []
  induction ids with
  | nil => simp
  | cons i is ih =>
    intro acc
    simp only [List.foldl_cons, List.filterMap_cons]
    rcases hrec : alistGet st.ror_id_to_record i with _ | inst
    · simp [ih]
    · by_cases hm : geonameMatches geos inst
      · simp [hm, ih, List.filter_cons]
      · simp [hm, ih, List.filter_cons]

/-- Claim C3, counterexample: the claim omits `lookup_institution`'s guard on
the length of the normalized token.  The display names `a.b` and `a-b` (both
of raw length 3, so they are indexed) normalize to the two-character key
`ab`, bound to two ids; for the token `ab` with no geonames the lookup
returns `([], false)` instead of the two candidates. -/
theorem C3_counterexample :
    alistGet shortKeyState.normalized_name_to_ror_id (normalize (str "ab")) =
      some [str "r1", str "r2"] ∧
    lookup_institution shortKeyState (str "ab") [] ≠
      (([str "r1", str "r2"]).filterMap (alistGet shortKeyState.ror_id_to_record),
       false) := by
  constructor
  · decide
  · decide

/-- Claim C3, amended: for every token whose normalized form has length at
least 3 and is an index key bound to two or more institution ids: with no
geonames, `lookup_institution` returns all candidate institutions in registry
ingestion order with `isUnique = false`; with a non-empty geoname list and
exactly one candidate whose display name contains some geoname as a
case-insensitive substring, it returns only that institution with
`isUnique = true`. -/
theorem C3_amended_thm (st : ServiceState) (token : List Char)
    (geos : List (List Char)) (ids : List (List Char))
    (hn : 3 ≤ (normalize token).length)
    (hids : alistGet st.normalized_name_to_ror_id (normalize token) = some ids)
    (hlen : 2 ≤ ids.length) :
    (geos = [] →
      lookup_institution st token geos =
        (ids.filterMap (alistGet st.ror_id_to_record), false)) ∧
    (∀ inst : Institution, geos ≠ [] →
      (ids.filterMap (alistGet st.ror_id_to_record)).filter (geonameMatches geos) =
        [inst] →
      lookup_institution st token geos = ([inst], true)) := by
  obtain ⟨a, ids1, rfl⟩ : ∃ a t, ids = a :: t := by
    cases ids with
    | nil => simp at hlen
    | cons a t => exact ⟨a, t, rfl⟩
  obtain ⟨b, ids2, rfl⟩ : ∃ b t, ids1 = b :: t := by
    cases ids1 with
    | nil => simp at hlen
    | cons b t => exact ⟨b, t, rfl⟩
  have hnotlt : ¬ (normalize token).length < 3 := by omega
  constructor
  · rintro rfl
    unfold lookup_institution
    rw [if_neg hnotlt, hids]
    have hd : disambiguate st [] (a :: b :: ids2) = none := by
      unfold disambiguate
      simp
    simp only [hd]
  · intro inst hne hfilter
    unfold lookup_institution
    rw [if_neg hnotlt, hids]
    have hd : disambiguate st geos (a :: b :: ids2) = some [inst] := by
      unfold disambiguate
      rw [if_neg (by simpa [List.isEmpty_iff] using hne)]
      rw [disambCandidates_eq, hfilter]
      simp
    simp only [hd]

/-- Witness for C3 at a concrete input: an index key bound to two
institutions returns both with `isUnique = false` when no geonames are
present, and only the geoname-matching one with `isUnique = true` when the
query mentioned `Springfield`. -/
theorem C3_witness :
    lookup_institution ambiguousState (str "Example University") [] =
      (([str "r1", str "r2"]).filterMap (alistGet ambiguousState.ror_id_to_record),
       false) ∧
    lookup_institution ambiguousState (str "Example University")
        [str "Springfield"] = ([instSpringfield], true) :=
  ⟨(C3_amended_thm ambiguousState (str "Example University") []
      [str "r1", str "r2"] (by decide) (by decide) (by decide)).1 rfl,
   (C3_amended_thm ambiguousState (str "Example University") [str "Springfield"]
      [str "r1", str "r2"] (by decide) (by decide) (by decide)).2 instSpringfield
     (by decide) (by decide)⟩

end Roracle
